import Mathlib

/-!
Verification of the MPMS `.dat` parsing, plotting and export tools.

The development shallowly embeds the two Python modules `dat_loader.py` and
`dat_to_numbers.py`.  A file is a list of raw lines (as produced by
`readlines`, so a line may still carry a trailing newline); Python string
operations are modelled character-by-character; the pandas calls
(`read_csv`, `to_numeric`, `DataFrame.assign`, column access) are modelled
on the quote-free comma-separated inputs the tools consume.
-/

/-! ## Python string primitives -/

/-- Characters removed by Python `line.rstrip("\n\r")`. -/
def isNL (c : Char) : Bool := c == '\n' || c == '\r'

/-- ASCII whitespace removed by Python `str.strip()`. -/
def isPySpace (c : Char) : Bool :=
  c == ' ' || c == '\t' || c == '\n' || c == '\r' || c == '\x0b' || c == '\x0c'

/-- Drop the longest suffix of characters satisfying `p`. -/
def dropTrailingWhile (p : Char → Bool) (l : List Char) : List Char :=
  (l.reverse.dropWhile p).reverse

/-- Python `line.rstrip("\n\r")`. -/
def rstripNR (s : String) : String := String.mk (dropTrailingWhile isNL s.data)

/-- Python `str.strip()` on ASCII input. -/
def pyStrip (s : String) : String :=
  String.mk (dropTrailingWhile isPySpace (s.data.dropWhile isPySpace))

/-- `startsList p l` is true when `p` is an initial segment of `l`. -/
def startsList : List Char → List Char → Bool
  | [], _ => true
  | _ :: _, [] => false
  | a :: as, b :: bs => a == b && startsList as bs

/-- Python `s.startswith(p)`. -/
def strStarts (p s : String) : Bool := startsList p.data s.data

/-- Python `c in s` for a single character `c`. -/
def strHasChar (c : Char) (s : String) : Bool := s.data.any (fun x => x == c)

/-- `listHasSub needle hay` is true when `needle` occurs contiguously in `hay`. -/
def listHasSub (needle : List Char) : List Char → Bool
  | [] => startsList needle []
  | b :: bs => startsList needle (b :: bs) || listHasSub needle bs

/-- Python `sub in s` substring containment. -/
def strHasSub (needle s : String) : Bool := listHasSub needle.data s.data

/-- Split at the first occurrence of `sep`, if there is one. -/
def splitFirstChar (sep : Char) : List Char → Option (List Char × List Char)
  | [] => none
  | c :: cs =>
    if c == sep then some ([], cs)
    else
      match splitFirstChar sep cs with
      | some (a, b) => some (c :: a, b)
      | none => none

/-- Python `s.split(sep, maxsplit)` on character lists: `maxsplit` bounds the
number of cuts, the unsplit remainder stays in the last field. -/
def pySplitChars (sep : Char) : Nat → List Char → List (List Char)
  | 0, cs => [cs]
  | n + 1, cs =>
    match splitFirstChar sep cs with
    | none => [cs]
    | some (a, b) => a :: pySplitChars sep n b

/-- Python `s.split(sep, maxsplit)`. -/
def pySplit (sep : Char) (maxsplit : Nat) (s : String) : List String :=
  (pySplitChars sep maxsplit s.data).map String.mk

/-- Python `s.split(sep)` without a split bound; this is also the field
tokenizer of the quote-free CSV model below. -/
def splitAllChars (sep : Char) : List Char → List (List Char)
  | [] => [[]]
  | c :: cs =>
    if c == sep then [] :: splitAllChars sep cs
    else
      match splitAllChars sep cs with
      | f :: rest => (c :: f) :: rest
      | [] => [[c]]

/-- The comma-separated fields of a line. -/
def commaFields (s : String) : List String := (splitAllChars ',' s.data).map String.mk

/-! ## Numeric cells -/

/-- A table cell after numeric coercion: missing (`NaN`), an infinity, or a
finite value.  `numpy.isfinite` holds exactly for `num`; `notna` fails
exactly for `nan`. -/
inductive Cell where
  | nan : Cell
  | posInf : Cell
  | negInf : Cell
  | num : ℚ → Cell
deriving DecidableEq, Repr

/-- `pandas.Series.notna` on one cell. -/
def Cell.notna : Cell → Bool
  | Cell.nan => false
  | _ => true

/-- `numpy.isfinite` on one cell. -/
def Cell.finite : Cell → Bool
  | Cell.num _ => true
  | _ => false

/-- Lower-case an ASCII letter. -/
def asciiLower (c : Char) : Char :=
  if 'A' ≤ c ∧ c ≤ 'Z' then Char.ofNat (c.toNat + 32) else c

/-- The value of a digit string, most significant digit first. -/
def digitsToNat (l : List Char) : Nat :=
  l.foldl (fun a c => a * 10 + (c.toNat - 48)) 0

/-- True when `l` is a nonempty string of decimal digits. -/
def allDigits (l : List Char) : Bool := !l.isEmpty && l.all Char.isDigit

/-- The exponent suffix (`e`/`E` part, already lower-cased) of a float
literal; `some 0` when absent, `none` when malformed. -/
def expPart : List Char → Option Int
  | [] => some 0
  | 'e' :: rest =>
    match rest with
    | '+' :: ds => if allDigits ds then some (Int.ofNat (digitsToNat ds)) else none
    | '-' :: ds => if allDigits ds then some (-(Int.ofNat (digitsToNat ds))) else none
    | ds => if allDigits ds then some (Int.ofNat (digitsToNat ds)) else none
  | _ => none

/-- The rational value of a signed decimal literal with integer digits `ip`,
fractional digits `fp` and exponent `e`. -/
def decimalVal (sign : Bool) (ip fp : List Char) (e : Int) : ℚ :=
  let m : Int := Int.ofNat (digitsToNat (ip ++ fp))
  let n : Int := if sign then -m else m
  let ex : Int := e - Int.ofNat fp.length
  if 0 ≤ ex then mkRat (n * (10 : Int) ^ ex.toNat) 1
  else mkRat n ((10 : Nat) ^ (-ex).toNat)

/-- Parse the unsigned part of a float literal: digits, an optional decimal
point with further digits, and an optional exponent; at least one digit must
be present before the exponent. -/
def parseDecimal (sign : Bool) (l : List Char) : Option ℚ :=
  let ip := l.takeWhile Char.isDigit
  let r1 := l.dropWhile Char.isDigit
  match r1 with
  | '.' :: r2 =>
    let fp := r2.takeWhile Char.isDigit
    let r3 := r2.dropWhile Char.isDigit
    if ip.isEmpty && fp.isEmpty then none
    else (expPart r3).map (fun e => decimalVal sign ip fp e)
  | _ =>
    if ip.isEmpty then none
    else (expPart r1).map (fun e => decimalVal sign ip [] e)

/-- Parse a sign-stripped, lower-cased float literal into a cell, `sign`
recording a leading minus. -/
def parseSignedCell (sign : Bool) (l : List Char) : Cell :=
  if l = ['i', 'n', 'f'] ∨ l = ['i', 'n', 'f', 'i', 'n', 'i', 't', 'y'] then
    if sign then Cell.negInf else Cell.posInf
  else
    match parseDecimal sign l with
    | some q => Cell.num q
    | none => Cell.nan

/-- Models `pandas.to_numeric(errors="coerce")` on one string cell (the net
effect of `read_csv` type inference followed by the coercion loop): the cell
is stripped and parsed as a float literal (decimal or scientific notation,
`inf`/`infinity`, any case, optional sign); anything unparsable — including
the empty field and the `NaN`/`NA`-style markers — becomes missing. -/
def toNumericCell (s : String) : Cell :=
  match (pyStrip s).data.map asciiLower with
  | [] => Cell.nan
  | '+' :: rest => parseSignedCell false rest
  | '-' :: rest => parseSignedCell true rest
  | l => parseSignedCell false l

/-! ## DataFrame model -/

deriving instance DecidableEq for Except

/-- Index of the first occurrence of `name`, if any (pandas column lookup). -/
def idxOf? (name : String) : List String → Option Nat
  | [] => none
  | c :: cs => if c = name then some 0 else (idxOf? name cs).map (· + 1)

/-- A numeric-coerced pandas DataFrame: named columns over rows of cells. -/
structure DataFrame where
  cols : List String
  rows : List (List Cell)
deriving DecidableEq, Repr

/-- `df[name].values`: the cells of the first column called `name`, `none`
when the frame has no such column (pandas raises `KeyError` there).  A row
missing trailing fields reads as missing values. -/
def DataFrame.getCol (df : DataFrame) (name : String) : Option (List Cell) :=
  (idxOf? name df.cols).map (fun i => df.rows.map (fun r => r.getD i Cell.nan))

/-- `pandas.DataFrame.assign(name=vals)` with a value array of row length:
overwrite the column in place when the name exists, else append it. -/
def DataFrame.assignCol (df : DataFrame) (name : String) (vals : List Cell) : DataFrame :=
  match idxOf? name df.cols with
  | some i => ⟨df.cols, (df.rows.zip vals).map (fun p => p.1.set i p.2)⟩
  | none => ⟨df.cols ++ [name], (df.rows.zip vals).map (fun p => p.1 ++ [p.2])⟩

/-- The failure conditions of parsing: the raised "No [Data] section found"
`ValueError`, and the `pandas.read_csv` failures (`EmptyDataError` on an
empty data block, tokenizer error on rows with extra fields). -/
inductive ParseError where
  | noDataSection : ParseError
  | emptyData : ParseError
  | raggedRows : ParseError
deriving DecidableEq, Repr

/-- An uncoerced delimited table: header names over rows of string fields. -/
structure RawFrame where
  cols : List String
  rows : List (List String)
deriving DecidableEq, Repr

/-- Models `pandas.read_csv` (default options) on quote-free comma-separated
lines: blank lines are skipped, the first remaining line names the columns,
each further line is split on commas, short rows are padded (the pad fields
coerce to missing below).  Out of the modelled scope are quoted fields,
duplicate or empty header names (pandas renames those; only theorems whose
hypotheses exclude them look at column names) and the index-column inference
pandas applies when every data row has exactly one extra field — rows with
more fields than the header fail here as they do in pandas otherwise. -/
def read_csv (ls : List String) : Except ParseError RawFrame :=
  match ls.filter (fun l => !(l == "")) with
  | [] => Except.error ParseError.emptyData
  | h :: rest =>
    if rest.any (fun r => decide ((commaFields h).length < (commaFields r).length)) then
      Except.error ParseError.raggedRows
    else
      Except.ok ⟨commaFields h, rest.map (fun r =>
        commaFields r ++ List.replicate ((commaFields h).length - (commaFields r).length) "")⟩

/-- The coercion loop `for col in df.columns: df[col] = pd.to_numeric(df[col],
errors="coerce")`. -/
def coerceNumeric (rf : RawFrame) : DataFrame :=
  ⟨rf.cols, rf.rows.map (fun r => r.map toNumericCell)⟩

/-! ## Python dict model -/

/-- Python `d[k] = v` on an insertion-ordered association list: an existing
binding of `k` is updated in place, a new key is appended. -/
def dictSet : List (String × String) → String → String → List (String × String)
  | [], k, v => [(k, v)]
  | (k0, v0) :: rest, k, v =>
    if k0 = k then (k, v) :: rest else (k0, v0) :: dictSet rest k v

/-! ## Claimed line classification (spec side) -/

/-- The classification of one header line as the specification states it. -/
inductive LineClass where
  | dataMarker : LineClass
  | infoEntry : String → String → LineClass
  | bareEntry : String → String → LineClass
  | ignored : LineClass
deriving DecidableEq, Repr

/-- Transcription of the claimed per-line classification order: a line
exactly `[Data]` is the marker; otherwise a line beginning `INFO,` is split
into at most 3 comma-separated fields and yields an entry exactly when 3
fields exist (key = field 2 stripped, value = field 3 stripped); otherwise a
line not starting with `;`, containing a comma, containing no `=` and not
starting with `[` is split on its first comma into a stripped key/value
entry; every other line is ignored. -/
def classifyLineSpec (line : String) : LineClass :=
  if line = "[Data]" then LineClass.dataMarker
  else if strStarts "INFO," line then
    match pySplit ',' 2 line with
    | [_, f2, f3] => LineClass.infoEntry (pyStrip f2) (pyStrip f3)
    | _ => LineClass.ignored
  else if !strStarts ";" line && strHasChar ',' line &&
      !strHasChar '=' line && !strStarts "[" line then
    match splitFirstChar ',' line.data with
    | some (k, v) => LineClass.bareEntry (pyStrip (String.mk k)) (pyStrip (String.mk v))
    | none => LineClass.ignored
  else LineClass.ignored

/-- The metadata entry contributed by a raw header line, if any. -/
def lineEntry (l : String) : Option (String × String) :=
  match classifyLineSpec (rstripNR l) with
  | LineClass.infoEntry k v => some (k, v)
  | LineClass.bareEntry k v => some (k, v)
  | _ => none

/-- The claimed header scan: classify each line in turn, stopping at the
first `[Data]` marker and recording the data-start offset. -/
def headerScanSpec : Nat → List (String × String) → List String →
    Option Nat × List (String × String)
  | _, acc, [] => (none, acc)
  | i, acc, l :: ls =>
    match classifyLineSpec (rstripNR l) with
    | LineClass.dataMarker => (some (i + 1), acc)
    | LineClass.infoEntry k v => headerScanSpec (i + 1) (dictSet acc k v) ls
    | LineClass.bareEntry k v => headerScanSpec (i + 1) (dictSet acc k v) ls
    | LineClass.ignored => headerScanSpec (i + 1) acc ls

/-! ## dat_loader.py -/

namespace DatLoader

/-- The body of the header-scan loop of `parse_mpms_dat` in `dat_loader.py`
for a non-marker line (already `rstrip`-ped): the `INFO,` branch splits with
`maxsplit=2` and stores fields 2/3 when at least 3 fields exist; the generic
branch stores the halves of the first-comma split of a non-comment,
comma-containing, `=`-free, non-section line. -/
def headerStep (acc : List (String × String)) (line : String) : List (String × String) :=
  if strStarts "INFO," line then
    let parts := pySplit ',' 2 line
    if 3 ≤ parts.length then
      dictSet acc (pyStrip (parts.getD 1 "")) (pyStrip (parts.getD 2 ""))
    else acc
  else if !strStarts ";" line && strHasChar ',' line &&
      !strHasChar '=' line && !strStarts "[" line then
    let key_val := pySplit ',' 1 line
    if key_val.length = 2 then
      dictSet acc (pyStrip (key_val.getD 0 "")) (pyStrip (key_val.getD 1 ""))
    else acc
  else acc

/-- The `for i, line in enumerate(lines)` loop of `parse_mpms_dat`: each line
is `rstrip("\n\r")`-ped; on the first line equal to `[Data]` the loop breaks
returning the data-start offset `i + 1`, otherwise the metadata dict is
updated by `headerStep`. -/
def scanHeader : Nat → List (String × String) → List String →
    Option Nat × List (String × String)
  | _, acc, [] => (none, acc)
  | i, acc, l :: ls =>
    let line := rstripNR l
    if line = "[Data]" then (some (i + 1), acc)
    else scanHeader (i + 1) (headerStep acc line) ls

/-- `parse_mpms_dat` of `dat_loader.py` over the file's raw lines: scan the
header; without a `[Data]` marker raise; otherwise feed the remaining
`rstrip`-ped lines to `read_csv` and numerically coerce every column. -/
def parse_mpms_dat (lines : List String) : Except ParseError (DataFrame × List (String × String)) :=
  match scanHeader 0 [] lines with
  | (none, _) => Except.error ParseError.noDataSection
  | (some ds, header_info) =>
    match read_csv ((lines.drop ds).map rstripNR) with
    | Except.error e => Except.error e
    | Except.ok rf => Except.ok (coerceNumeric rf, header_info)

/-- The priority list of `get_moment_column`. -/
def momentCandidates : List String :=
  ["DC Moment Free Ctr (emu)", "DC Moment Fixed Ctr (emu)", "Moment (emu)"]

/-- `get_moment_column`: the first candidate that is a column of `df` with at
least one non-missing value, else `None`. -/
def get_moment_column (df : DataFrame) : Option String :=
  momentCandidates.find? (fun c =>
    df.cols.contains c &&
      match df.getCol c with
      | some vs => vs.any Cell.notna
      | none => false)

/-- Python truthiness of an optional string (`if moment_col:`). -/
def optStrTruthy : Option String → Bool
  | none => false
  | some s => !(s == "")

/-- Python `a or b` for an optional string `a` and default `b`. -/
def pyOrStr (a : Option String) (b : String) : String :=
  match a with
  | none => b
  | some s => if s = "" then b else s

/-- The table transformation of `load_dat`: when `get_moment_column` finds a
(truthy) column, `df.assign(Moment=df[moment_col].values)`; otherwise the
parsed frame is returned as is.  (The inner `none` fallbacks are unreachable:
the selector only returns names of existing columns.) -/
def load_dat_table (df : DataFrame) : DataFrame :=
  let moment_col := get_moment_column df
  if optStrTruthy moment_col then
    match moment_col with
    | some c =>
      match df.getCol c with
      | some vs => df.assignCol "Moment" vs
      | none => df
    | none => df
  else df

/-- `load_dat`: parse a file and add the `Moment` column. -/
def load_dat (lines : List String) : Except ParseError DataFrame :=
  match parse_mpms_dat lines with
  | Except.error e => Except.error e
  | Except.ok (df, _) => Except.ok (load_dat_table df)

/-- The failures of a plotting call: the explicit `ValueError` for a missing
axis column, the pandas `KeyError` from `df[moment_col]`, and the
`ValueError` for an empty finite mask. -/
inductive PlotError where
  | colNotInFrame : String → PlotError
  | keyError : String → PlotError
  | noFinitePairs : PlotError
deriving DecidableEq, Repr

/-- `plot_moment_vs_field` up to the drawing calls, returning the plotted
`(x, y)` pairs: resolve the moment column (caller's choice, else the
selector, else `"Moment"`, replaced by `"Moment"` when absent but a
`"Moment"` column exists), require the field column, extract both value
arrays, keep the finite pairs, and fail when none remain. -/
def plot_moment_vs_field (df : DataFrame) (moment_col : Option String)
    (field_col : String := "Magnetic Field (Oe)") : Except PlotError (List (Cell × Cell)) :=
  let mc1 := match moment_col with
    | none => get_moment_column df
    | some c => some c
  let mc2 := match mc1 with
    | none => "Moment"
    | some c => c
  let mc := if !df.cols.contains mc2 && df.cols.contains "Moment" then "Moment" else mc2
  if !df.cols.contains field_col then
    Except.error (PlotError.colNotInFrame field_col)
  else
    match df.getCol field_col with
    | none => Except.error (PlotError.keyError field_col)
    | some xs =>
      match df.getCol mc with
      | none => Except.error (PlotError.keyError mc)
      | some ys =>
        let pairs := (xs.zip ys).filter (fun p => Cell.finite p.1 && Cell.finite p.2)
        if pairs.isEmpty then Except.error PlotError.noFinitePairs
        else Except.ok pairs

/-- `plot_moment_vs_temperature` up to the drawing calls: resolve the moment
column (`get_moment_column(df) or "Moment"` when not supplied — no
substitution for a supplied one), require the temperature column, keep the
finite pairs, fail when none remain. -/
def plot_moment_vs_temperature (df : DataFrame) (moment_col : Option String)
    (temp_col : String := "Temperature (K)") : Except PlotError (List (Cell × Cell)) :=
  let mc := match moment_col with
    | none => pyOrStr (get_moment_column df) "Moment"
    | some c => c
  if !df.cols.contains temp_col then
    Except.error (PlotError.colNotInFrame temp_col)
  else
    match df.getCol temp_col with
    | none => Except.error (PlotError.keyError temp_col)
    | some xs =>
      match df.getCol mc with
      | none => Except.error (PlotError.keyError mc)
      | some ys =>
        let pairs := (xs.zip ys).filter (fun p => Cell.finite p.1 && Cell.finite p.2)
        if pairs.isEmpty then Except.error PlotError.noFinitePairs
        else Except.ok pairs

end DatLoader

/-! ## dat_to_numbers.py -/

namespace DatToNumbers

/-- The body of the header-scan loop of `parse_mpms_dat` in
`dat_to_numbers.py` (textually the same loop as in `dat_loader.py`). -/
def headerStep (acc : List (String × String)) (line : String) : List (String × String) :=
  if strStarts "INFO," line then
    let parts := pySplit ',' 2 line
    if 3 ≤ parts.length then
      dictSet acc (pyStrip (parts.getD 1 "")) (pyStrip (parts.getD 2 ""))
    else acc
  else if !strStarts ";" line && strHasChar ',' line &&
      !strHasChar '=' line && !strStarts "[" line then
    let key_val := pySplit ',' 1 line
    if key_val.length = 2 then
      dictSet acc (pyStrip (key_val.getD 0 "")) (pyStrip (key_val.getD 1 ""))
    else acc
  else acc

/-- The `for i, line in enumerate(lines)` loop of `parse_mpms_dat` in
`dat_to_numbers.py`. -/
def scanHeader : Nat → List (String × String) → List String →
    Option Nat × List (String × String)
  | _, acc, [] => (none, acc)
  | i, acc, l :: ls =>
    let line := rstripNR l
    if line = "[Data]" then (some (i + 1), acc)
    else scanHeader (i + 1) (headerStep acc line) ls

/-- `parse_mpms_dat` of `dat_to_numbers.py` over the file's raw lines. -/
def parse_mpms_dat (lines : List String) : Except ParseError (DataFrame × List (String × String)) :=
  match scanHeader 0 [] lines with
  | (none, _) => Except.error ParseError.noDataSection
  | (some ds, header_info) =>
    match read_csv ((lines.drop ds).map rstripNR) with
    | Except.error e => Except.error e
    | Except.ok rf => Except.ok (coerceNumeric rf, header_info)

/-- A spreadsheet cell: a numeric table cell or a metadata string. -/
inductive XCell where
  | num : Cell → XCell
  | str : String → XCell
deriving DecidableEq, Repr

/-- One worksheet as written by `to_excel(..., index=False)`: a header row of
names followed by the value rows. -/
structure Sheet where
  header : List String
  rows : List (List XCell)
deriving DecidableEq, Repr

/-- The `Data` sheet: the parsed table. -/
def dataSheet (df : DataFrame) : Sheet :=
  ⟨df.cols, df.rows.map (fun r => r.map XCell.num)⟩

/-- The `Metadata` sheet: the metadata mapping as `Property`/`Value` rows. -/
def metadataSheet (meta : List (String × String)) : Sheet :=
  ⟨["Property", "Value"], meta.map (fun kv => [XCell.str kv.1, XCell.str kv.2])⟩

/-- `convert_dat_to_numbers` for a file with stem `stem`: parse, then write
`<stem>.xlsx` with the table on a `Data` sheet and — only when the metadata
dict is truthy, i.e. nonempty — the mapping on a `Metadata` sheet.  The model
returns the output file name and its sheets in written order. -/
def convert_dat_to_numbers (stem : String) (lines : List String) :
    Except ParseError (String × List (String × Sheet)) :=
  match parse_mpms_dat lines with
  | Except.error e => Except.error e
  | Except.ok (df, header_info) =>
    Except.ok (stem ++ ".xlsx",
      [("Data", dataSheet df)] ++
        (if header_info.isEmpty then [] else [("Metadata", metadataSheet header_info)]))

/-- A discovered input file: its file name, stem, and raw lines. -/
structure FileInput where
  name : String
  stem : String
  content : List String
deriving DecidableEq, Repr

/-- The per-file console messages of the batch loop of `main`. -/
inductive LogEntry where
  | convertedFile : String → String → LogEntry
  | skippedFile : String → LogEntry
  | errorFile : String → ParseError → LogEntry
deriving DecidableEq, Repr

/-- The counters and outputs accumulated by the batch loop of `main`. -/
structure BatchState where
  converted : Nat
  skipped : Nat
  errors : Nat
  outputs : List (String × List (String × Sheet))
  log : List LogEntry
deriving DecidableEq, Repr

/-- The state before the batch loop. -/
def initialState : BatchState := ⟨0, 0, 0, [], []⟩

/-- The `--skip-rw` test: `args.skip_rw and ".rw.dat" in dat_file.name`. -/
def shouldSkip (skipRw : Bool) (f : FileInput) : Bool :=
  skipRw && strHasSub ".rw.dat" f.name

/-- One iteration of the batch loop of `main`: skip `.rw.dat` files when
requested, otherwise convert inside `try/except`, counting and logging a
success or a caught per-file error. -/
def processFile (skipRw : Bool) (st : BatchState) (f : FileInput) : BatchState :=
  if shouldSkip skipRw f then
    { st with skipped := st.skipped + 1, log := st.log ++ [LogEntry.skippedFile f.name] }
  else
    match convert_dat_to_numbers f.stem f.content with
    | Except.ok out =>
      { st with converted := st.converted + 1, outputs := st.outputs ++ [out],
                log := st.log ++ [LogEntry.convertedFile f.name out.1] }
    | Except.error e =>
      { st with errors := st.errors + 1, log := st.log ++ [LogEntry.errorFile f.name e] }

/-- The batch loop of `main` over the discovered files. -/
def runBatch (skipRw : Bool) (files : List FileInput) : BatchState :=
  files.foldl (processFile skipRw) initialState

end DatToNumbers

/-! ## Spec-side descriptions used by the claims -/

/-- The pairs a plot keeps, described by index as the claim states it: the
`(x, y)` value pairs at exactly those positions where both values are
finite. -/
def finitePairsSpec (xs ys : List Cell) : List (Cell × Cell) :=
  (List.range (min xs.length ys.length)).filterMap (fun i =>
    match xs.get? i, ys.get? i with
    | some x, some y => if Cell.finite x && Cell.finite y then some (x, y) else none
    | _, _ => none)

/-- The claimed qualification of a moment candidate: `c` is a column of the
table with at least one non-missing value. -/
def momentQualifies (df : DataFrame) (c : String) : Bool :=
  df.cols.contains c &&
    match df.getCol c with
    | some vs => vs.any Cell.notna
    | none => false

/-! ## Helper lemmas: splitting and classification -/

lemma pySplitChars_length_le (sep : Char) :
    ∀ (n : Nat) (cs : List Char), (pySplitChars sep n cs).length ≤ n + 1 := by
  intro n
  induction n with
  | zero => intro cs; simp [pySplitChars]
  | succ n ih =>
    intro cs
    simp only [pySplitChars]
    cases h : splitFirstChar sep cs with
    | none => simp
    | some ab =>
      obtain ⟨a, b⟩ := ab
      simpa using Nat.succ_le_succ (ih b)

lemma pySplit_length_le (sep : Char) (n : Nat) (s : String) :
    (pySplit sep n s).length ≤ n + 1 := by
  simpa [pySplit] using pySplitChars_length_le sep n s.data

lemma splitFirstChar_of_any {sep : Char} :
    ∀ {cs : List Char}, cs.any (fun x => x == sep) = true →
      ∃ a b, splitFirstChar sep cs = some (a, b) := by
  intro cs
  induction cs with
  | nil => intro h; simp at h
  | cons x xs ih =>
    intro h
    by_cases hx : (x == sep) = true
    · exact ⟨[], xs, by simp [splitFirstChar, hx]⟩
    · simp only [List.any_cons, hx, Bool.false_or] at h
      obtain ⟨a, b, hab⟩ := ih h
      exact ⟨x :: a, b, by simp [splitFirstChar, hx, hab]⟩

lemma classify_marker_iff (s : String) :
    classifyLineSpec s = LineClass.dataMarker ↔ s = "[Data]" := by
  constructor
  · intro h
    by_contra hs
    unfold classifyLineSpec at h
    rw [if_neg hs] at h
    split at h
    · split at h <;> simp_all
    · split at h
      · split at h <;> simp_all
      · simp at h
  · intro h
    simp [classifyLineSpec, h]

/-- The loop body of the source coincides with the claimed classification on
every non-marker line. -/
lemma headerStep_classify (acc : List (String × String)) (s : String)
    (hs : s ≠ "[Data]") :
    DatLoader.headerStep acc s =
      match classifyLineSpec s with
      | LineClass.infoEntry k v => dictSet acc k v
      | LineClass.bareEntry k v => dictSet acc k v
      | _ => acc := by
  unfold DatLoader.headerStep classifyLineSpec
  rw [if_neg hs]
  by_cases hI : strStarts "INFO," s = true
  · simp only [hI, if_true]
    have hlen : (pySplit ',' 2 s).length ≤ 3 := pySplit_length_le ',' 2 s
    rcases hp : pySplit ',' 2 s with _ | ⟨a, _ | ⟨b, _ | ⟨c, _ | ⟨d, tl⟩⟩⟩⟩
    · simp [hp]
    · simp [hp]
    · simp [hp]
    · simp [hp]
    · rw [hp] at hlen
      simp only [List.length_cons] at hlen
      omega
  · simp only [hI, Bool.false_eq_true, if_false]
    by_cases hB : (!strStarts ";" s && strHasChar ',' s &&
        !strHasChar '=' s && !strStarts "[" s) = true
    · simp only [hB, if_true]
      have hcomma : s.data.any (fun x => x == ',') = true := by
        have := hB
        simp only [Bool.and_eq_true] at this
        exact this.1.1.2
      obtain ⟨a, b, hab⟩ := splitFirstChar_of_any hcomma
      have hsplit : pySplit ',' 1 s = [String.mk a, String.mk b] := by
        simp [pySplit, pySplitChars, hab]
      simp [hsplit, hab]
    · simp only [hB, Bool.false_eq_true, if_false]

/-- C1: before the `[Data]` marker every line is classified in the claimed
order — the first line equal to `[Data]` stops the scan recording offset
`i + 1`; an `INFO,` line is split into at most 3 comma-separated fields and,
when 3 exist, sets key = field 2 stripped to value = field 3 stripped;
otherwise a non-comment line containing a comma, free of `=` and not
starting with `[` is split on its first comma into a stripped key/value
entry; every other line leaves the metadata mapping unchanged.  Stated as:
the source's header scan equals the scan transcribed from the claim. -/
theorem claim_C1 (i : Nat) (acc : List (String × String)) (lines : List String) :
    DatLoader.scanHeader i acc lines = headerScanSpec i acc lines := by
  induction lines generalizing i acc with
  | nil => rfl
  | cons l ls ih =>
    simp only [DatLoader.scanHeader, headerScanSpec]
    by_cases hd : rstripNR l = "[Data]"
    · simp [hd, classifyLineSpec]
    · rw [if_neg hd, headerStep_classify acc (rstripNR l) hd]
      cases hc : classifyLineSpec (rstripNR l) with
      | dataMarker => exact absurd ((classify_marker_iff _).mp hc) hd
      | infoEntry k v => simp [hc, ih]
      | bareEntry k v => simp [hc, ih]
      | ignored => simp [hc, ih]

/-! ## C9: the two parsers agree -/

lemma headerStep_eq : DatToNumbers.headerStep = DatLoader.headerStep := rfl

lemma scanHeader_eq : ∀ (ls : List String) (i : Nat) (acc : List (String × String)),
    DatLoader.scanHeader i acc ls = DatToNumbers.scanHeader i acc ls := by
  intro ls
  induction ls with
  | nil => intro i acc; rfl
  | cons l ls ih =>
    intro i acc
    simp only [DatLoader.scanHeader, DatToNumbers.scanHeader, headerStep_eq]
    by_cases h : rstripNR l = "[Data]" <;> simp [h, ih]

/-- C9: the two copies of `parse_mpms_dat` are extensionally equal — on every
input file they return equal `(table, metadata)` results, and in particular
each fails with a given error exactly when the other does. -/
theorem claim_C9 (lines : List String) :
    DatLoader.parse_mpms_dat lines = DatToNumbers.parse_mpms_dat lines := by
  unfold DatLoader.parse_mpms_dat DatToNumbers.parse_mpms_dat
  rw [scanHeader_eq]

/-! ## C2: failure is exactly the missing marker -/

lemma scanHeader_fst_none_iff :
    ∀ (ls : List String) (i : Nat) (acc : List (String × String)),
      (DatLoader.scanHeader i acc ls).1 = none ↔ ∀ l ∈ ls, rstripNR l ≠ "[Data]" := by
  intro ls
  induction ls with
  | nil => intro i acc; simp [DatLoader.scanHeader]
  | cons l ls ih =>
    intro i acc
    simp only [DatLoader.scanHeader]
    by_cases h : rstripNR l = "[Data]"
    · simp [h]
    · simp [h, ih]

lemma read_csv_ne_noData (ls : List String) :
    read_csv ls ≠ Except.error ParseError.noDataSection := by
  unfold read_csv
  split
  · simp
  · split
    · simp
    · simp

/-- Evaluation of `parse_mpms_dat` when the scan finds no marker. -/
lemma parse_scan_none {lines : List String} {acc : List (String × String)}
    (hscan : DatLoader.scanHeader 0 [] lines = (none, acc)) :
    DatLoader.parse_mpms_dat lines = Except.error ParseError.noDataSection := by
  unfold DatLoader.parse_mpms_dat
  rw [hscan]

/-- Evaluation of `parse_mpms_dat` when the scan finds the marker. -/
lemma parse_scan_some {lines : List String} {ds : Nat} {acc : List (String × String)}
    (hscan : DatLoader.scanHeader 0 [] lines = (some ds, acc)) :
    DatLoader.parse_mpms_dat lines =
      match read_csv ((lines.drop ds).map rstripNR) with
      | Except.error e => Except.error e
      | Except.ok rf => Except.ok (coerceNumeric rf, acc) := by
  unfold DatLoader.parse_mpms_dat
  rw [hscan]

/-- C2 (amended): parsing raises the "No [Data] section found" condition
exactly when no line of the file `rstrip`s to `[Data]`; when such a line
exists that condition is never raised, though parsing may still fail
otherwise (empty data block, ragged rows). -/
theorem claim_C2_amended (lines : List String) :
    DatLoader.parse_mpms_dat lines = Except.error ParseError.noDataSection ↔
      ∀ l ∈ lines, rstripNR l ≠ "[Data]" := by
  rcases hscan : DatLoader.scanHeader 0 [] lines with ⟨o, acc⟩
  have hiff := scanHeader_fst_none_iff lines 0 []
  rw [hscan] at hiff
  cases o with
  | none =>
    rw [parse_scan_none hscan]
    simpa using hiff
  | some ds =>
    simp only at hiff
    rw [parse_scan_some hscan]
    constructor
    · intro h
      exfalso
      rcases hcsv : read_csv ((lines.drop ds).map rstripNR) with e | rf
      · rw [hcsv] at h
        have he : e = ParseError.noDataSection := by simpa using h
        exact read_csv_ne_noData _ (he ▸ hcsv)
      · rw [hcsv] at h
        simp at h
    · intro h
      exact absurd (hiff.mpr h) (by simp)

/-- C2 counterexample: the file whose single line is the `[Data]` marker
contains that marker, yet parsing does not return a `(table, metadata)`
pair — the empty data block makes `read_csv` raise `EmptyDataError`. -/
theorem claim_C2_cex :
    rstripNR "[Data]" = "[Data]" ∧
    DatLoader.parse_mpms_dat ["[Data]"] = Except.error ParseError.emptyData := by
  decide

/-! ## Dict and scan lemmas for C4 -/

lemma mem_dictSet_self (m : List (String × String)) (k v : String) :
    (k, v) ∈ dictSet m k v := by
  induction m with
  | nil => simp [dictSet]
  | cons p rest ih =>
    obtain ⟨k0, v0⟩ := p
    by_cases h : k0 = k
    · simp [dictSet, h]
    · simp [dictSet, h, ih]

lemma mem_dictSet_of_ne {m : List (String × String)} {k v k' v' : String}
    (hm : (k, v) ∈ m) (hne : k ≠ k') : (k, v) ∈ dictSet m k' v' := by
  induction m with
  | nil => simp at hm
  | cons p rest ih =>
    obtain ⟨k0, v0⟩ := p
    rcases List.mem_cons.mp hm with he | ht
    · have hk : k0 = k := by
        injection he with h1 h2
        exact h1.symm
      have hv : v0 = v := by
        injection he with h1 h2
        exact h2.symm
      subst hk
      subst hv
      simp only [dictSet, if_neg hne]
      exact List.mem_cons_self _ _
    · by_cases h : k0 = k'
      · simp only [dictSet, if_pos h]
        exact List.mem_cons_of_mem _ ht
      · simp only [dictSet, if_neg h]
        exact List.mem_cons.mpr (Or.inr (ih ht))

lemma mem_foldl_dictSet_preserve (entries : List (String × String)) :
    ∀ (acc : List (String × String)) (k v : String), (k, v) ∈ acc →
      (∀ p ∈ entries, p.1 ≠ k) →
      (k, v) ∈ entries.foldl (fun a p => dictSet a p.1 p.2) acc := by
  induction entries with
  | nil => intro acc k v hmem _; exact hmem
  | cons e rest ih =>
    intro acc k v hmem hne
    simp only [List.foldl_cons]
    apply ih
    · exact mem_dictSet_of_ne hmem (Ne.symm (hne e (by simp)))
    · intro p hp
      exact hne p (by simp [hp])

lemma mem_foldl_dictSet (entries : List (String × String))
    (hnd : (entries.map Prod.fst).Nodup) :
    ∀ (acc : List (String × String)), ∀ kv ∈ entries,
      kv ∈ entries.foldl (fun a p => dictSet a p.1 p.2) acc := by
  induction entries with
  | nil => intro acc kv h; simp at h
  | cons e rest ih =>
    simp only [List.map_cons, List.nodup_cons] at hnd
    intro acc kv hkv
    simp only [List.foldl_cons]
    rcases List.mem_cons.mp hkv with he | ht
    · subst he
      apply mem_foldl_dictSet_preserve
      · exact mem_dictSet_self _ _ _
      · intro p hp hq
        exact hnd.1 (hq ▸ List.mem_map_of_mem Prod.fst hp)
    · exact ih hnd.2 _ kv ht

lemma scanHeader_append (pre : List String) :
    ∀ (i : Nat) (acc : List (String × String)) (ls' : List String),
      (∀ l ∈ pre, rstripNR l ≠ "[Data]") →
      DatLoader.scanHeader i acc (pre ++ ls') =
        DatLoader.scanHeader (i + pre.length)
          (pre.foldl (fun a l => DatLoader.headerStep a (rstripNR l)) acc) ls' := by
  induction pre with
  | nil => intro i acc ls' _; simp
  | cons p pre ih =>
    intro i acc ls' h
    have hp : rstripNR p ≠ "[Data]" := h p (by simp)
    have step : DatLoader.scanHeader i acc ((p :: pre) ++ ls') =
        DatLoader.scanHeader (i + 1) (DatLoader.headerStep acc (rstripNR p)) (pre ++ ls') := by
      simp only [List.cons_append, DatLoader.scanHeader, if_neg hp]
      rfl
    rw [step, ih (i + 1) _ ls' (fun l hl => h l (List.mem_cons_of_mem _ hl))]
    have hidx : i + 1 + pre.length = i + (p :: pre).length := by
      simp only [List.length_cons]
      omega
    rw [hidx, List.foldl_cons]

lemma foldl_headerStep_entries (pre : List String) :
    ∀ (acc : List (String × String)),
      (∀ l ∈ pre, rstripNR l ≠ "[Data]") →
      pre.foldl (fun a l => DatLoader.headerStep a (rstripNR l)) acc =
        (pre.filterMap lineEntry).foldl (fun a p => dictSet a p.1 p.2) acc := by
  induction pre with
  | nil => intro acc _; rfl
  | cons p pre ih =>
    intro acc h
    have hp : rstripNR p ≠ "[Data]" := h p (by simp)
    have hrest : ∀ l ∈ pre, rstripNR l ≠ "[Data]" := fun l hl => h l (by simp [hl])
    simp only [List.foldl_cons, List.filterMap_cons]
    rw [headerStep_classify acc (rstripNR p) hp]
    unfold lineEntry
    cases hc : classifyLineSpec (rstripNR p) with
    | dataMarker => exact absurd ((classify_marker_iff _).mp hc) hp
    | infoEntry k v => simpa [hc] using ih _ hrest
    | bareEntry k v => simpa [hc] using ih _ hrest
    | ignored => simpa [hc] using ih _ hrest

lemma drop_succ_append (pre : List String) (x : String) (rest : List String) :
    (pre ++ x :: rest).drop (pre.length + 1) = rest := by
  induction pre with
  | nil => simp
  | cons p pre ih => simpa using ih

/-! ## C4: well-formed files parse to the expected table and metadata -/

/-- C4: a well-formed file — header lines, a `[Data]` marker, a nonblank
quote-free header row immediately after it, data rows with the header's
field count, every `INFO,` line carrying its 3 fields, and distinct
metadata keys — parses to a table whose column count is the field count of
the header row, with a metadata mapping containing the key/value of every
`INFO,` and bare `key,value` line seen before `[Data]`. -/
theorem claim_C4 (pre : List String) (mark hdr : String) (body : List String)
    (hmark : rstripNR mark = "[Data]")
    (hpre : ∀ l ∈ pre, rstripNR l ≠ "[Data]")
    (hinfo : ∀ l ∈ pre, strStarts "INFO," (rstripNR l) = true →
      (pySplit ',' 2 (rstripNR l)).length = 3)
    (hkeys : ((pre.filterMap lineEntry).map Prod.fst).Nodup)
    (hhdr : rstripNR hdr ≠ "")
    (hhdrnames : (commaFields (rstripNR hdr)).Nodup ∧
      ∀ f ∈ commaFields (rstripNR hdr), f ≠ "")
    (hquote : ∀ l ∈ hdr :: body, strHasChar '\"' (rstripNR l) = false)
    (hrect : ∀ l ∈ body, rstripNR l ≠ "" →
      (commaFields (rstripNR l)).length = (commaFields (rstripNR hdr)).length) :
    ∃ df meta,
      DatLoader.parse_mpms_dat (pre ++ mark :: hdr :: body) = Except.ok (df, meta) ∧
      df.cols.length = (commaFields (rstripNR hdr)).length ∧
      ∀ l ∈ pre, ∀ k v, lineEntry l = some (k, v) → (k, v) ∈ meta := by
  have hscan : DatLoader.scanHeader 0 [] (pre ++ mark :: hdr :: body) =
      (some (pre.length + 1),
        (pre.filterMap lineEntry).foldl (fun a p => dictSet a p.1 p.2) []) := by
    rw [scanHeader_append pre 0 [] (mark :: hdr :: body) hpre,
      foldl_headerStep_entries pre [] hpre]
    simp [DatLoader.scanHeader, hmark]
  have hfilter : ((hdr :: body).map rstripNR).filter (fun l => !(l == "")) =
      rstripNR hdr :: (body.map rstripNR).filter (fun l => !(l == "")) := by
    simp only [List.map_cons]
    rw [List.filter_cons_of_pos]
    simp [hhdr]
  have hragged : ((body.map rstripNR).filter (fun l => !(l == ""))).any
      (fun r => decide ((commaFields (rstripNR hdr)).length < (commaFields r).length)) =
        false := by
    by_contra hc
    rw [Bool.not_eq_false, List.any_eq_true] at hc
    obtain ⟨r, hr, hlt⟩ := hc
    rw [List.mem_filter] at hr
    obtain ⟨hrm, hrp⟩ := hr
    rw [List.mem_map] at hrm
    obtain ⟨l, hl, rfl⟩ := hrm
    have hne : rstripNR l ≠ "" := by simpa using hrp
    rw [hrect l hl hne] at hlt
    simp at hlt
  have hcsv : read_csv ((hdr :: body).map rstripNR) =
      Except.ok ⟨commaFields (rstripNR hdr),
        ((body.map rstripNR).filter (fun l => !(l == ""))).map (fun r =>
          commaFields r ++
            List.replicate ((commaFields (rstripNR hdr)).length - (commaFields r).length) "")⟩ := by
    unfold read_csv
    rw [hfilter]
    simp [hragged]
  refine ⟨coerceNumeric ⟨commaFields (rstripNR hdr),
      ((body.map rstripNR).filter (fun l => !(l == ""))).map (fun r =>
        commaFields r ++
          List.replicate ((commaFields (rstripNR hdr)).length - (commaFields r).length) "")⟩,
    (pre.filterMap lineEntry).foldl (fun a p => dictSet a p.1 p.2) [], ?_, ?_, ?_⟩
  · rw [parse_scan_some hscan, drop_succ_append, hcsv]
  · rfl
  · intro l hl k v hkv
    exact mem_foldl_dictSet _ hkeys [] (k, v) (List.mem_filterMap.mpr ⟨l, hl, hkv⟩)

/-- C4 witness: a concrete well-formed file with one `INFO,` line and one
bare `key,value` line. -/
theorem claim_C4_witness :
    ∃ df meta,
      DatLoader.parse_mpms_dat
          (["INFO,SAMPLE,NaCl", "Weight,0.5"] ++ "[Data]" :: "A,B" :: ["1,2"]) =
        Except.ok (df, meta) ∧
      df.cols.length = (commaFields (rstripNR "A,B")).length ∧
      ∀ l ∈ ["INFO,SAMPLE,NaCl", "Weight,0.5"], ∀ k v,
        lineEntry l = some (k, v) → (k, v) ∈ meta :=
  claim_C4 ["INFO,SAMPLE,NaCl", "Weight,0.5"] "[Data]" "A,B" ["1,2"]
    (by decide) (by decide) (by decide) (by decide) (by decide) (by decide)
    (by decide) (by decide)

/-! ## Column lookup lemmas -/

lemma contains_iff_mem (l : List String) (a : String) : l.contains a = true ↔ a ∈ l :=
  List.elem_iff

lemma idxOf?_eq_none_iff (name : String) :
    ∀ (l : List String), idxOf? name l = none ↔ name ∉ l := by
  intro l
  induction l with
  | nil => simp [idxOf?]
  | cons c cs ih =>
    by_cases h : c = name
    · simp [idxOf?, h]
    · simp only [idxOf?, if_neg h, Option.map_eq_none', ih, List.mem_cons]
      constructor
      · intro hn
        rintro (rfl | hm)
        · exact h rfl
        · exact hn hm
      · intro hn
        exact fun hm => hn (Or.inr hm)

lemma getCol_eq_none_iff (df : DataFrame) (name : String) :
    df.getCol name = none ↔ name ∉ df.cols := by
  unfold DataFrame.getCol
  rw [Option.map_eq_none']
  exact idxOf?_eq_none_iff name df.cols

lemma getCol_isSome_of_mem {df : DataFrame} {name : String} (h : name ∈ df.cols) :
    ∃ vs, df.getCol name = some vs := by
  rcases hg : df.getCol name with _ | vs
  · exact absurd ((getCol_eq_none_iff df name).mp hg) (by simp [h])
  · exact ⟨vs, rfl⟩

lemma getCol_length {df : DataFrame} {name : String} {vs : List Cell}
    (h : df.getCol name = some vs) : vs.length = df.rows.length := by
  unfold DataFrame.getCol at h
  rcases hi : idxOf? name df.cols with _ | i
  · rw [hi] at h
    simp at h
  · rw [hi] at h
    simp only [Option.map_some', Option.some.injEq] at h
    rw [← h, List.length_map]

/-! ## The finite-pair filter -/

lemma finitePairsSpec_cons (x y : Cell) (xs ys : List Cell) :
    finitePairsSpec (x :: xs) (y :: ys) =
      (if Cell.finite x && Cell.finite y then [(x, y)] else []) ++ finitePairsSpec xs ys := by
  unfold finitePairsSpec
  rw [List.length_cons, List.length_cons, Nat.succ_min_succ, List.range_succ_eq_map,
    List.filterMap_cons, List.filterMap_map]
  have hfun : ((fun i => match (x :: xs).get? i, (y :: ys).get? i with
      | some a, some b => if Cell.finite a && Cell.finite b then some (a, b) else none
      | _, _ => none) ∘ Nat.succ) =
      (fun i => match xs.get? i, ys.get? i with
      | some a, some b => if Cell.finite a && Cell.finite b then some (a, b) else none
      | _, _ => none) := by
    funext i
    rfl
  rw [hfun]
  by_cases hf : (Cell.finite x && Cell.finite y) = true
  · simp [hf]
  · simp [hf]

lemma zip_filter_finite : ∀ (xs ys : List Cell),
    (xs.zip ys).filter (fun p => Cell.finite p.1 && Cell.finite p.2) =
      finitePairsSpec xs ys := by
  intro xs
  induction xs with
  | nil => intro ys; simp [finitePairsSpec]
  | cons x xs ih =>
    intro ys
    cases ys with
    | nil => simp [finitePairsSpec]
    | cons y ys =>
      rw [finitePairsSpec_cons, List.zip_cons_cons, List.filter_cons]
      by_cases hf : (Cell.finite x && Cell.finite y) = true
      · simp [hf, ih]
      · simp [hf, ih]

/-! ## Plot evaluation lemmas -/

lemma plot_field_eval {df : DataFrame} {mc fc : String} {xs ys : List Cell}
    (hmc : df.cols.contains mc = true) (hfc : df.cols.contains fc = true)
    (hx : df.getCol fc = some xs) (hy : df.getCol mc = some ys) :
    DatLoader.plot_moment_vs_field df (some mc) fc =
      if (finitePairsSpec xs ys).isEmpty then Except.error DatLoader.PlotError.noFinitePairs
      else Except.ok (finitePairsSpec xs ys) := by
  unfold DatLoader.plot_moment_vs_field
  dsimp only
  rw [hmc]
  simp only [Bool.not_true, Bool.false_and, Bool.false_eq_true, if_false, hfc,
    Bool.not_false, hx, hy, zip_filter_finite]

lemma plot_temp_eval {df : DataFrame} {mc tc : String} {xs ys : List Cell}
    (htc : df.cols.contains tc = true)
    (hx : df.getCol tc = some xs) (hy : df.getCol mc = some ys) :
    DatLoader.plot_moment_vs_temperature df (some mc) tc =
      if (finitePairsSpec xs ys).isEmpty then Except.error DatLoader.PlotError.noFinitePairs
      else Except.ok (finitePairsSpec xs ys) := by
  unfold DatLoader.plot_moment_vs_temperature
  simp only [htc, Bool.not_true, Bool.false_eq_true, if_false, hx, hy, zip_filter_finite]

/-- C5: with the requested moment and axis columns present, both plotting
functions keep exactly the value pairs at the indices where both values are
finite, and raise the empty-plot error precisely when no such index
exists. -/
theorem claim_C5 (df : DataFrame) (mc fc : String) (xs ys : List Cell)
    (hmc : df.cols.contains mc = true) (hfc : df.cols.contains fc = true)
    (hx : df.getCol fc = some xs) (hy : df.getCol mc = some ys) :
    ((DatLoader.plot_moment_vs_field df (some mc) fc =
          Except.ok (finitePairsSpec xs ys) ∧ finitePairsSpec xs ys ≠ []) ∨
      (DatLoader.plot_moment_vs_field df (some mc) fc =
          Except.error DatLoader.PlotError.noFinitePairs ∧ finitePairsSpec xs ys = [])) ∧
    ((DatLoader.plot_moment_vs_temperature df (some mc) fc =
          Except.ok (finitePairsSpec xs ys) ∧ finitePairsSpec xs ys ≠ []) ∨
      (DatLoader.plot_moment_vs_temperature df (some mc) fc =
          Except.error DatLoader.PlotError.noFinitePairs ∧ finitePairsSpec xs ys = [])) := by
  rw [plot_field_eval hmc hfc hx hy, plot_temp_eval hfc hx hy]
  by_cases he : finitePairsSpec xs ys = []
  · rw [if_pos (by simp [he])]
    exact ⟨Or.inr ⟨rfl, he⟩, Or.inr ⟨rfl, he⟩⟩
  · rw [if_neg (by simp [he])]
    exact ⟨Or.inl ⟨rfl, he⟩, Or.inl ⟨rfl, he⟩⟩

/-- C5 witness: a two-row table with one NaN-paired row; exactly the fully
finite pair survives in both plots. -/
theorem claim_C5_witness :
    ((DatLoader.plot_moment_vs_field ⟨["T", "M"], [[Cell.num 1, Cell.nan], [Cell.num 2, Cell.num 3]]⟩
          (some "M") "T" =
        Except.ok (finitePairsSpec [Cell.num 1, Cell.num 2] [Cell.nan, Cell.num 3]) ∧
        finitePairsSpec [Cell.num 1, Cell.num 2] [Cell.nan, Cell.num 3] ≠ []) ∨
      (DatLoader.plot_moment_vs_field ⟨["T", "M"], [[Cell.num 1, Cell.nan], [Cell.num 2, Cell.num 3]]⟩
          (some "M") "T" =
        Except.error DatLoader.PlotError.noFinitePairs ∧
        finitePairsSpec [Cell.num 1, Cell.num 2] [Cell.nan, Cell.num 3] = [])) ∧
    ((DatLoader.plot_moment_vs_temperature ⟨["T", "M"], [[Cell.num 1, Cell.nan], [Cell.num 2, Cell.num 3]]⟩
          (some "M") "T" =
        Except.ok (finitePairsSpec [Cell.num 1, Cell.num 2] [Cell.nan, Cell.num 3]) ∧
        finitePairsSpec [Cell.num 1, Cell.num 2] [Cell.nan, Cell.num 3] ≠ []) ∨
      (DatLoader.plot_moment_vs_temperature ⟨["T", "M"], [[Cell.num 1, Cell.nan], [Cell.num 2, Cell.num 3]]⟩
          (some "M") "T" =
        Except.error DatLoader.PlotError.noFinitePairs ∧
        finitePairsSpec [Cell.num 1, Cell.num 2] [Cell.nan, Cell.num 3] = [])) :=
  claim_C5 ⟨["T", "M"], [[Cell.num 1, Cell.nan], [Cell.num 2, Cell.num 3]]⟩ "M" "T"
    [Cell.num 1, Cell.num 2] [Cell.nan, Cell.num 3]
    (by decide) (by decide) (by decide) (by decide)

/-! ## C6: absent requested columns -/

/-- C6 counterexample: `plot_moment_vs_field` is called with the explicitly
requested moment column `"Bogus"`, which is not a column of the table — yet
the call does not raise: it silently substitutes the `"Moment"` column and
plots its pairs. -/
theorem claim_C6_cex :
    (DataFrame.mk ["Magnetic Field (Oe)", "Moment"] [[Cell.num 1, Cell.num 2]]).cols.contains
        "Bogus" = false ∧
    DatLoader.plot_moment_vs_field
        ⟨["Magnetic Field (Oe)", "Moment"], [[Cell.num 1, Cell.num 2]]⟩
        (some "Bogus") "Magnetic Field (Oe)" =
      Except.ok [(Cell.num 1, Cell.num 2)] := by
  decide

/-- C6 (amended): an absent field or temperature axis column is fatal
(`ValueError`); an explicitly requested moment column that is absent is
fatal in `plot_moment_vs_temperature`, and in `plot_moment_vs_field` only
when no `"Moment"` column exists (`KeyError`); when a `"Moment"` column
exists, `plot_moment_vs_field` silently substitutes it for an absent
requested moment column instead of raising. -/
theorem claim_C6_amended :
    (∀ (df : DataFrame) (mc : Option String) (fc : String),
      df.cols.contains fc = false →
      DatLoader.plot_moment_vs_field df mc fc =
        Except.error (DatLoader.PlotError.colNotInFrame fc)) ∧
    (∀ (df : DataFrame) (mc : Option String) (tc : String),
      df.cols.contains tc = false →
      DatLoader.plot_moment_vs_temperature df mc tc =
        Except.error (DatLoader.PlotError.colNotInFrame tc)) ∧
    (∀ (df : DataFrame) (mc tc : String),
      df.cols.contains tc = true → df.cols.contains mc = false →
      DatLoader.plot_moment_vs_temperature df (some mc) tc =
        Except.error (DatLoader.PlotError.keyError mc)) ∧
    (∀ (df : DataFrame) (mc fc : String),
      df.cols.contains fc = true → df.cols.contains mc = false →
      df.cols.contains "Moment" = false →
      DatLoader.plot_moment_vs_field df (some mc) fc =
        Except.error (DatLoader.PlotError.keyError mc)) ∧
    (∀ (df : DataFrame) (mc fc : String),
      df.cols.contains mc = false → df.cols.contains "Moment" = true →
      DatLoader.plot_moment_vs_field df (some mc) fc =
        DatLoader.plot_moment_vs_field df (some "Moment") fc) := by
  refine ⟨?_, ?_, ?_, ?_, ?_⟩
  · intro df mc fc hfc
    unfold DatLoader.plot_moment_vs_field
    dsimp only
    rw [hfc]
    simp
  · intro df mc tc htc
    unfold DatLoader.plot_moment_vs_temperature
    dsimp only
    rw [htc]
    simp
  · intro df mc tc htc hmc
    obtain ⟨xs, hxs⟩ := getCol_isSome_of_mem ((contains_iff_mem _ _).mp htc)
    have hy : df.getCol mc = none :=
      (getCol_eq_none_iff df mc).mpr (fun hm => by
        rw [(contains_iff_mem _ _).mpr hm] at hmc
        exact Bool.true_eq_false.mp hmc)
    unfold DatLoader.plot_moment_vs_temperature
    dsimp only
    rw [htc]
    simp [hxs, hy]
  · intro df mc fc hfc hmc hMom
    obtain ⟨xs, hxs⟩ := getCol_isSome_of_mem ((contains_iff_mem _ _).mp hfc)
    have hy : df.getCol mc = none :=
      (getCol_eq_none_iff df mc).mpr (fun hm => by
        rw [(contains_iff_mem _ _).mpr hm] at hmc
        exact Bool.true_eq_false.mp hmc)
    unfold DatLoader.plot_moment_vs_field
    dsimp only
    rw [hmc, hMom]
    simp [hfc, hxs, hy, (contains_iff_mem _ _).mp hfc]
  · intro df mc fc hmc hMom
    unfold DatLoader.plot_moment_vs_field
    dsimp only
    rw [hmc, hMom]
    simp

/-- C6 witness: concrete instances of all five amended cases. -/
theorem claim_C6_witness :
    DatLoader.plot_moment_vs_field ⟨["X"], []⟩ none "F" =
      Except.error (DatLoader.PlotError.colNotInFrame "F") ∧
    DatLoader.plot_moment_vs_temperature ⟨["X"], []⟩ none "T" =
      Except.error (DatLoader.PlotError.colNotInFrame "T") ∧
    DatLoader.plot_moment_vs_temperature ⟨["T"], []⟩ (some "M") "T" =
      Except.error (DatLoader.PlotError.keyError "M") ∧
    DatLoader.plot_moment_vs_field ⟨["F"], []⟩ (some "M") "F" =
      Except.error (DatLoader.PlotError.keyError "M") ∧
    DatLoader.plot_moment_vs_field ⟨["F", "Moment"], []⟩ (some "M") "F" =
      DatLoader.plot_moment_vs_field ⟨["F", "Moment"], []⟩ (some "Moment") "F" :=
  ⟨claim_C6_amended.1 ⟨["X"], []⟩ none "F" (by decide),
   claim_C6_amended.2.1 ⟨["X"], []⟩ none "T" (by decide),
   claim_C6_amended.2.2.1 ⟨["T"], []⟩ "M" "T" (by decide) (by decide),
   claim_C6_amended.2.2.2.1 ⟨["F"], []⟩ "M" "F" (by decide) (by decide) (by decide),
   claim_C6_amended.2.2.2.2 ⟨["F", "Moment"], []⟩ "M" "F" (by decide) (by decide)⟩

/-! ## C3: moment column selection -/

lemma find?_three {α : Type} (p : α → Bool) (a b c : α) :
    List.find? p [a, b, c] =
      if p a then some a else if p b then some b else if p c then some c else none := by
  cases hpa : p a <;> cases hpb : p b <;> cases hpc : p c <;>
    simp [List.find?, hpa, hpb, hpc]

/-- C3 counterexample: a table in which `DC Moment Free Ctr (emu)` is
all-missing and `Moment (emu)` has a non-missing value, but in which
`DC Moment Fixed Ctr (emu)` also qualifies — the selector returns the
Fixed-Ctr column, not `Moment (emu)`. -/
theorem claim_C3_cex :
    (DataFrame.mk
        ["DC Moment Free Ctr (emu)", "DC Moment Fixed Ctr (emu)", "Moment (emu)"]
        [[Cell.nan, Cell.num 1, Cell.num 2]]).getCol "DC Moment Free Ctr (emu)" =
      some [Cell.nan] ∧
    (DataFrame.mk
        ["DC Moment Free Ctr (emu)", "DC Moment Fixed Ctr (emu)", "Moment (emu)"]
        [[Cell.nan, Cell.num 1, Cell.num 2]]).getCol "Moment (emu)" =
      some [Cell.num 2] ∧
    DatLoader.get_moment_column
        ⟨["DC Moment Free Ctr (emu)", "DC Moment Fixed Ctr (emu)", "Moment (emu)"],
         [[Cell.nan, Cell.num 1, Cell.num 2]]⟩ =
      some "DC Moment Fixed Ctr (emu)" ∧
    ¬ DatLoader.get_moment_column
        ⟨["DC Moment Free Ctr (emu)", "DC Moment Fixed Ctr (emu)", "Moment (emu)"],
         [[Cell.nan, Cell.num 1, Cell.num 2]]⟩ =
      some "Moment (emu)" := by
  decide

/-- C3 (amended): the selector walks the fixed priority list and returns the
first candidate that is a column of the table with at least one non-missing
value, `none` when no candidate qualifies; in particular a table where
`DC Moment Free Ctr (emu)` does not qualify, `DC Moment Fixed Ctr (emu)`
does not qualify either, and `Moment (emu)` does, selects `Moment (emu)`.
The last part spells out what "qualifies" means. -/
theorem claim_C3_amended (df : DataFrame) :
    (DatLoader.get_moment_column df =
      if momentQualifies df "DC Moment Free Ctr (emu)" then some "DC Moment Free Ctr (emu)"
      else if momentQualifies df "DC Moment Fixed Ctr (emu)" then some "DC Moment Fixed Ctr (emu)"
      else if momentQualifies df "Moment (emu)" then some "Moment (emu)"
      else none) ∧
    (momentQualifies df "DC Moment Free Ctr (emu)" = false →
      momentQualifies df "DC Moment Fixed Ctr (emu)" = false →
      momentQualifies df "Moment (emu)" = true →
      DatLoader.get_moment_column df = some "Moment (emu)") ∧
    (∀ c, momentQualifies df c = true ↔
      c ∈ df.cols ∧ ∃ vs, df.getCol c = some vs ∧ ∃ v ∈ vs, v ≠ Cell.nan) := by
  have hfind : DatLoader.get_moment_column df =
      if momentQualifies df "DC Moment Free Ctr (emu)" then some "DC Moment Free Ctr (emu)"
      else if momentQualifies df "DC Moment Fixed Ctr (emu)" then some "DC Moment Fixed Ctr (emu)"
      else if momentQualifies df "Moment (emu)" then some "Moment (emu)"
      else none :=
    find?_three _ _ _ _
  refine ⟨hfind, ?_, ?_⟩
  · intro hq1 hq2 hq3
    rw [hfind, hq1, hq2, hq3]
    simp
  · intro c
    unfold momentQualifies
    constructor
    · intro h
      rw [Bool.and_eq_true] at h
      obtain ⟨hc, hm⟩ := h
      refine ⟨(contains_iff_mem _ _).mp hc, ?_⟩
      rcases hg : df.getCol c with _ | vs
      · rw [hg] at hm
        simp at hm
      · rw [hg] at hm
        rw [List.any_eq_true] at hm
        obtain ⟨v, hv, hnv⟩ := hm
        refine ⟨vs, rfl, v, hv, ?_⟩
        cases v <;> simp_all [Cell.notna]
    · rintro ⟨hc, vs, hg, v, hv, hnv⟩
      rw [Bool.and_eq_true]
      refine ⟨(contains_iff_mem _ _).mpr hc, ?_⟩
      rw [hg, List.any_eq_true]
      refine ⟨v, hv, ?_⟩
      cases v <;> simp_all [Cell.notna]

/-- C3 witness: with only `Moment (emu)` present and populated, the selector
returns it. -/
theorem claim_C3_witness :
    DatLoader.get_moment_column ⟨["Moment (emu)"], [[Cell.num 5]]⟩ =
      some "Moment (emu)" :=
  (claim_C3_amended ⟨["Moment (emu)"], [[Cell.num 5]]⟩).2.1
    (by decide) (by decide) (by decide)

/-! ## C7: the exported workbook -/

/-- C7 counterexample: a file that parses successfully but has no metadata
lines — the exporter writes only the `Data` sheet, no `Metadata` sheet. -/
theorem claim_C7_cex :
    DatToNumbers.convert_dat_to_numbers "sample" ["[Data]", "A,B", "1,2"] =
      Except.ok ("sample.xlsx",
        [("Data", ⟨["A", "B"],
          [[DatToNumbers.XCell.num (Cell.num 1), DatToNumbers.XCell.num (Cell.num 2)]]⟩)]) ∧
    (DatToNumbers.parse_mpms_dat ["[Data]", "A,B", "1,2"]).isOk = true := by
  decide

/-- C7 (amended): for every successfully parsed file the exporter writes
`<stem>.xlsx` whose first sheet is `Data` holding the parsed table, and it
contains a `Metadata` sheet (the mapping as `Property`/`Value` rows) exactly
when the metadata mapping is nonempty; with empty metadata only the `Data`
sheet is written. -/
theorem claim_C7_amended (stem : String) (lines : List String) (df : DataFrame)
    (meta : List (String × String))
    (h : DatToNumbers.parse_mpms_dat lines = Except.ok (df, meta)) :
    ∃ sheets,
      DatToNumbers.convert_dat_to_numbers stem lines =
        Except.ok (stem ++ ".xlsx", sheets) ∧
      sheets.head? = some ("Data", DatToNumbers.dataSheet df) ∧
      (("Metadata", DatToNumbers.metadataSheet meta) ∈ sheets ↔ meta ≠ []) ∧
      sheets.map Prod.fst = (if meta.isEmpty then ["Data"] else ["Data", "Metadata"]) := by
  have hne : ("Metadata" : String) ≠ "Data" := by decide
  refine ⟨[("Data", DatToNumbers.dataSheet df)] ++
      (if meta.isEmpty then []
       else [("Metadata", DatToNumbers.metadataSheet meta)]), ?_, ?_, ?_, ?_⟩
  · unfold DatToNumbers.convert_dat_to_numbers
    rw [h]
  · by_cases hm : meta.isEmpty <;> simp [hm]
  · by_cases hm : meta.isEmpty
    · have hε : meta = [] := List.isEmpty_iff.mp hm
      subst hε
      simp [hne]
    · have hε : meta ≠ [] := fun hq => hm (by simp [hq])
      simp [hm, hε]
  · by_cases hm : meta.isEmpty <;> simp [hm]

/-- C7 witness: a file with one metadata line exports both sheets. -/
theorem claim_C7_witness :
    ∃ sheets,
      DatToNumbers.convert_dat_to_numbers "run1" ["Weight,0.5", "[Data]", "A", "1"] =
        Except.ok ("run1" ++ ".xlsx", sheets) ∧
      sheets.head? = some ("Data",
        DatToNumbers.dataSheet ⟨["A"], [[Cell.num 1]]⟩) ∧
      (("Metadata", DatToNumbers.metadataSheet [("Weight", "0.5")]) ∈ sheets ↔
        [("Weight", "0.5")] ≠ ([] : List (String × String))) ∧
      sheets.map Prod.fst =
        (if ([("Weight", "0.5")] : List (String × String)).isEmpty then ["Data"]
         else ["Data", "Metadata"]) :=
  claim_C7_amended "run1" ["Weight,0.5", "[Data]", "A", "1"]
    ⟨["A"], [[Cell.num 1]]⟩ [("Weight", "0.5")] (by decide)

/-! ## C8: the batch loop -/

lemma processFile_skip {skipRw : Bool} {st : DatToNumbers.BatchState}
    {g : DatToNumbers.FileInput} (hs : DatToNumbers.shouldSkip skipRw g = true) :
    DatToNumbers.processFile skipRw st g =
      { st with skipped := st.skipped + 1,
                log := st.log ++ [DatToNumbers.LogEntry.skippedFile g.name] } := by
  simp [DatToNumbers.processFile, hs]

lemma processFile_ok {skipRw : Bool} {st : DatToNumbers.BatchState}
    {g : DatToNumbers.FileInput} {out : String × List (String × DatToNumbers.Sheet)}
    (hs : DatToNumbers.shouldSkip skipRw g = false)
    (hc : DatToNumbers.convert_dat_to_numbers g.stem g.content = Except.ok out) :
    DatToNumbers.processFile skipRw st g =
      { st with converted := st.converted + 1, outputs := st.outputs ++ [out],
                log := st.log ++ [DatToNumbers.LogEntry.convertedFile g.name out.1] } := by
  simp [DatToNumbers.processFile, hs, hc]

lemma processFile_err {skipRw : Bool} {st : DatToNumbers.BatchState}
    {g : DatToNumbers.FileInput} {e : ParseError}
    (hs : DatToNumbers.shouldSkip skipRw g = false)
    (hc : DatToNumbers.convert_dat_to_numbers g.stem g.content = Except.error e) :
    DatToNumbers.processFile skipRw st g =
      { st with errors := st.errors + 1,
                log := st.log ++ [DatToNumbers.LogEntry.errorFile g.name e] } := by
  simp [DatToNumbers.processFile, hs, hc]

lemma processFile_delta (skipRw : Bool) (st : DatToNumbers.BatchState)
    (g : DatToNumbers.FileInput) :
    (DatToNumbers.processFile skipRw st g).converted =
      st.converted + (DatToNumbers.processFile skipRw DatToNumbers.initialState g).converted ∧
    (DatToNumbers.processFile skipRw st g).skipped =
      st.skipped + (DatToNumbers.processFile skipRw DatToNumbers.initialState g).skipped ∧
    (DatToNumbers.processFile skipRw st g).errors =
      st.errors + (DatToNumbers.processFile skipRw DatToNumbers.initialState g).errors ∧
    (DatToNumbers.processFile skipRw st g).outputs =
      st.outputs ++ (DatToNumbers.processFile skipRw DatToNumbers.initialState g).outputs ∧
    (DatToNumbers.processFile skipRw st g).log =
      st.log ++ (DatToNumbers.processFile skipRw DatToNumbers.initialState g).log := by
  by_cases hs : DatToNumbers.shouldSkip skipRw g = true
  · rw [processFile_skip hs, processFile_skip hs]
    simp [DatToNumbers.initialState]
  · have hs' : DatToNumbers.shouldSkip skipRw g = false := by
      cases hq : DatToNumbers.shouldSkip skipRw g
      · rfl
      · exact absurd hq hs
    rcases hc : DatToNumbers.convert_dat_to_numbers g.stem g.content with e | out
    · rw [processFile_err hs' hc, processFile_err hs' hc]
      simp [DatToNumbers.initialState]
    · rw [processFile_ok hs' hc, processFile_ok hs' hc]
      simp [DatToNumbers.initialState]

lemma foldl_batch_delta (skipRw : Bool) :
    ∀ (fs : List DatToNumbers.FileInput) (st : DatToNumbers.BatchState),
      (fs.foldl (DatToNumbers.processFile skipRw) st).converted =
        st.converted + (DatToNumbers.runBatch skipRw fs).converted ∧
      (fs.foldl (DatToNumbers.processFile skipRw) st).skipped =
        st.skipped + (DatToNumbers.runBatch skipRw fs).skipped ∧
      (fs.foldl (DatToNumbers.processFile skipRw) st).errors =
        st.errors + (DatToNumbers.runBatch skipRw fs).errors ∧
      (fs.foldl (DatToNumbers.processFile skipRw) st).outputs =
        st.outputs ++ (DatToNumbers.runBatch skipRw fs).outputs ∧
      (fs.foldl (DatToNumbers.processFile skipRw) st).log =
        st.log ++ (DatToNumbers.runBatch skipRw fs).log := by
  intro fs
  induction fs with
  | nil =>
    intro st
    simp [DatToNumbers.runBatch, DatToNumbers.initialState]
  | cons g fs ih =>
    intro st
    have hrun : DatToNumbers.runBatch skipRw (g :: fs) =
        fs.foldl (DatToNumbers.processFile skipRw)
          (DatToNumbers.processFile skipRw DatToNumbers.initialState g) := rfl
    obtain ⟨d1, d2, d3, d4, d5⟩ := processFile_delta skipRw st g
    obtain ⟨a1, a2, a3, a4, a5⟩ := ih (DatToNumbers.processFile skipRw st g)
    obtain ⟨b1, b2, b3, b4, b5⟩ :=
      ih (DatToNumbers.processFile skipRw DatToNumbers.initialState g)
    refine ⟨?_, ?_, ?_, ?_, ?_⟩
    · rw [List.foldl_cons, a1, d1, hrun, b1]
      omega
    · rw [List.foldl_cons, a2, d2, hrun, b2]
      omega
    · rw [List.foldl_cons, a3, d3, hrun, b3]
      omega
    · rw [List.foldl_cons, a4, d4, hrun, b4, List.append_assoc]
    · rw [List.foldl_cons, a5, d5, hrun, b5, List.append_assoc]

lemma mem_outputs_of_ok (skipRw : Bool) :
    ∀ (fs : List DatToNumbers.FileInput) (g : DatToNumbers.FileInput)
      (out : String × List (String × DatToNumbers.Sheet)),
      g ∈ fs → DatToNumbers.shouldSkip skipRw g = false →
      DatToNumbers.convert_dat_to_numbers g.stem g.content = Except.ok out →
      out ∈ (DatToNumbers.runBatch skipRw fs).outputs := by
  intro fs
  induction fs with
  | nil => intro g out hg _ _; simp at hg
  | cons f fs ih =>
    intro g out hg hs hc
    have hrun : DatToNumbers.runBatch skipRw (f :: fs) =
        fs.foldl (DatToNumbers.processFile skipRw)
          (DatToNumbers.processFile skipRw DatToNumbers.initialState f) := rfl
    obtain ⟨_, _, _, b4, _⟩ :=
      foldl_batch_delta skipRw fs (DatToNumbers.processFile skipRw DatToNumbers.initialState f)
    rcases List.mem_cons.mp hg with rfl | hmem
    · rw [hrun, b4, processFile_ok hs hc]
      simp [DatToNumbers.initialState]
    · rw [hrun, b4]
      exact List.mem_append.mpr (Or.inr (ih g out hmem hs hc))

/-- C8: a file whose conversion fails is caught inside the batch loop —
logged with its file name and error, counted as one error — and the loop
continues: the batch over `files1 ++ [f] ++ files2` produces exactly the
outputs of `files1` and `files2`, and every later file that converts
successfully still appears among the outputs. -/
theorem claim_C8 (skipRw : Bool) (files1 files2 : List DatToNumbers.FileInput)
    (f : DatToNumbers.FileInput) (e : ParseError)
    (hskip : DatToNumbers.shouldSkip skipRw f = false)
    (hfail : DatToNumbers.convert_dat_to_numbers f.stem f.content = Except.error e) :
    DatToNumbers.LogEntry.errorFile f.name e ∈
      (DatToNumbers.runBatch skipRw (files1 ++ f :: files2)).log ∧
    (DatToNumbers.runBatch skipRw (files1 ++ f :: files2)).errors =
      (DatToNumbers.runBatch skipRw files1).errors + 1 +
        (DatToNumbers.runBatch skipRw files2).errors ∧
    (DatToNumbers.runBatch skipRw (files1 ++ f :: files2)).outputs =
      (DatToNumbers.runBatch skipRw files1).outputs ++
        (DatToNumbers.runBatch skipRw files2).outputs ∧
    (DatToNumbers.runBatch skipRw (files1 ++ f :: files2)).converted =
      (DatToNumbers.runBatch skipRw files1).converted +
        (DatToNumbers.runBatch skipRw files2).converted ∧
    ∀ (g : DatToNumbers.FileInput) (out : String × List (String × DatToNumbers.Sheet)),
      g ∈ files2 → DatToNumbers.shouldSkip skipRw g = false →
      DatToNumbers.convert_dat_to_numbers g.stem g.content = Except.ok out →
      out ∈ (DatToNumbers.runBatch skipRw (files1 ++ f :: files2)).outputs := by
  have h0 : DatToNumbers.runBatch skipRw (files1 ++ f :: files2) =
      files2.foldl (DatToNumbers.processFile skipRw)
        (DatToNumbers.processFile skipRw (DatToNumbers.runBatch skipRw files1) f) := by
    unfold DatToNumbers.runBatch
    rw [List.foldl_append]
    rfl
  rw [h0, processFile_err hskip hfail]
  obtain ⟨c1, c2, c3, c4, c5⟩ := foldl_batch_delta skipRw files2
    { DatToNumbers.runBatch skipRw files1 with
      errors := (DatToNumbers.runBatch skipRw files1).errors + 1,
      log := (DatToNumbers.runBatch skipRw files1).log ++
        [DatToNumbers.LogEntry.errorFile f.name e] }
  refine ⟨?_, ?_, ?_, ?_, ?_⟩
  · rw [c5]
    simp
  · rw [c3]
  · rw [c4]
  · rw [c1]
  · intro g out hg hs hc
    rw [c4]
    exact List.mem_append.mpr (Or.inr (mem_outputs_of_ok skipRw files2 g out hg hs hc))

/-- C8 witness: a malformed file followed by a well-formed one — the error
is logged and counted, the good file is still converted. -/
theorem claim_C8_witness :
    DatToNumbers.LogEntry.errorFile "bad.dat" ParseError.noDataSection ∈
      (DatToNumbers.runBatch false
        [⟨"bad.dat", "bad", ["x"]⟩, ⟨"good.dat", "good", ["[Data]", "A", "1"]⟩]).log ∧
    (DatToNumbers.runBatch false
        [⟨"bad.dat", "bad", ["x"]⟩, ⟨"good.dat", "good", ["[Data]", "A", "1"]⟩]).errors =
      (DatToNumbers.runBatch false []).errors + 1 +
        (DatToNumbers.runBatch false [⟨"good.dat", "good", ["[Data]", "A", "1"]⟩]).errors ∧
    (DatToNumbers.runBatch false
        [⟨"bad.dat", "bad", ["x"]⟩, ⟨"good.dat", "good", ["[Data]", "A", "1"]⟩]).outputs =
      (DatToNumbers.runBatch false []).outputs ++
        (DatToNumbers.runBatch false [⟨"good.dat", "good", ["[Data]", "A", "1"]⟩]).outputs ∧
    (DatToNumbers.runBatch false
        [⟨"bad.dat", "bad", ["x"]⟩, ⟨"good.dat", "good", ["[Data]", "A", "1"]⟩]).converted =
      (DatToNumbers.runBatch false []).converted +
        (DatToNumbers.runBatch false [⟨"good.dat", "good", ["[Data]", "A", "1"]⟩]).converted ∧
    ∀ (g : DatToNumbers.FileInput) (out : String × List (String × DatToNumbers.Sheet)),
      g ∈ [(⟨"good.dat", "good", ["[Data]", "A", "1"]⟩ : DatToNumbers.FileInput)] →
      DatToNumbers.shouldSkip false g = false →
      DatToNumbers.convert_dat_to_numbers g.stem g.content = Except.ok out →
      out ∈ (DatToNumbers.runBatch false
        [⟨"bad.dat", "bad", ["x"]⟩, ⟨"good.dat", "good", ["[Data]", "A", "1"]⟩]).outputs :=
  claim_C8 false [] [⟨"good.dat", "good", ["[Data]", "A", "1"]⟩]
    ⟨"bad.dat", "bad", ["x"]⟩ ParseError.noDataSection (by decide) (by decide)

/-! ## C10: the frame effect of load_dat -/

lemma idxOf?_lt_length {name : String} :
    ∀ {l : List String} {i : Nat}, idxOf? name l = some i → i < l.length := by
  intro l
  induction l with
  | nil => intro i h; simp [idxOf?] at h
  | cons c cs ih =>
    intro i h
    by_cases hc : c = name
    · simp only [idxOf?, if_pos hc, Option.some.injEq] at h
      simp [← h]
    · simp only [idxOf?, if_neg hc] at h
      rcases hq : idxOf? name cs with _ | j
      · rw [hq] at h
        simp at h
      · rw [hq] at h
        simp only [Option.map_some', Option.some.injEq] at h
        have := ih hq
        simp only [List.length_cons]
        omega

lemma idxOf?_get {name : String} :
    ∀ {l : List String} {i : Nat}, idxOf? name l = some i → l.get? i = some name := by
  intro l
  induction l with
  | nil => intro i h; simp [idxOf?] at h
  | cons c cs ih =>
    intro i h
    by_cases hc : c = name
    · simp only [idxOf?, if_pos hc, Option.some.injEq] at h
      rw [← h]
      simp [hc]
    · simp only [idxOf?, if_neg hc] at h
      rcases hq : idxOf? name cs with _ | j
      · rw [hq] at h
        simp at h
      · rw [hq] at h
        simp only [Option.map_some', Option.some.injEq] at h
        rw [← h]
        simpa using ih hq

lemma set_getD_self : ∀ (r : List Cell) (i : Nat) (v : Cell), i < r.length →
    (r.set i v).getD i Cell.nan = v
  | [], _, _, h => absurd h (by simp)
  | _ :: _, 0, _, _ => rfl
  | _ :: r, i + 1, v, h => set_getD_self r i v (by simpa using h)

lemma set_getD_ne : ∀ (r : List Cell) (i j : Nat) (v : Cell), j ≠ i →
    (r.set i v).getD j Cell.nan = r.getD j Cell.nan
  | [], _, _, _, _ => rfl
  | _ :: _, 0, 0, _, h => absurd rfl h
  | _ :: _, 0, _ + 1, _, _ => rfl
  | _ :: _, _ + 1, 0, _, _ => rfl
  | _ :: r, i + 1, j + 1, v, h => set_getD_ne r i j v (fun hq => h (by rw [hq]))

lemma map_set_getD_eq : ∀ (rows : List (List Cell)) (vs : List Cell) (i : Nat),
    rows.length = vs.length → (∀ r ∈ rows, i < r.length) →
    ((rows.zip vs).map (fun p => p.1.set i p.2)).map (fun r => r.getD i Cell.nan) = vs := by
  intro rows
  induction rows with
  | nil =>
    intro vs i hlen _
    cases vs with
    | nil => rfl
    | cons v vs => simp at hlen
  | cons r rows ih =>
    intro vs i hlen hin
    cases vs with
    | nil => simp at hlen
    | cons v vs =>
      simp only [List.zip_cons_cons, List.map_cons]
      rw [set_getD_self r i v (hin r (by simp)),
        ih vs i (by simpa using hlen) (fun r' hr' => hin r' (by simp [hr']))]

lemma map_set_getD_ne : ∀ (rows : List (List Cell)) (vs : List Cell) (i j : Nat),
    rows.length = vs.length → j ≠ i →
    ((rows.zip vs).map (fun p => p.1.set i p.2)).map (fun r => r.getD j Cell.nan) =
      rows.map (fun r => r.getD j Cell.nan) := by
  intro rows
  induction rows with
  | nil => intro vs i j _ _; rfl
  | cons r rows ih =>
    intro vs i j hlen hne
    cases vs with
    | nil => simp at hlen
    | cons v vs =>
      simp only [List.zip_cons_cons, List.map_cons]
      rw [set_getD_ne r i j v hne, ih vs i j (by simpa using hlen) hne]

/-- C10 counterexample: a parsed table that already has a column literally
named `Moment` next to `Moment (emu)`.  `load_dat` adds no column: it
overwrites the existing `Moment` column (value 1 becomes 2), so an original
column's values change. -/
theorem claim_C10_cex :
    DatLoader.parse_mpms_dat ["[Data]", "Moment,Moment (emu)", "1,2"] =
      Except.ok (⟨["Moment", "Moment (emu)"], [[Cell.num 1, Cell.num 2]]⟩, []) ∧
    DatLoader.load_dat ["[Data]", "Moment,Moment (emu)", "1,2"] =
      Except.ok ⟨["Moment", "Moment (emu)"], [[Cell.num 2, Cell.num 2]]⟩ := by
  decide

/-- C10 (amended): when the selector finds no column, `load_dat` returns the
parsed table unchanged; when it finds column `c`, the result is the table
with a `Moment` column holding `c`'s values — appended as a new column when
no `Moment` column exists, but overwriting the existing `Moment` column's
values in place when one does (all other columns keeping their values). -/
theorem claim_C10_amended (df : DataFrame) :
    (DatLoader.get_moment_column df = none → DatLoader.load_dat_table df = df) ∧
    (∀ c vs, DatLoader.get_moment_column df = some c → df.getCol c = some vs →
      (df.cols.contains "Moment" = false →
        DatLoader.load_dat_table df =
          ⟨df.cols ++ ["Moment"], (df.rows.zip vs).map (fun p => p.1 ++ [p.2])⟩) ∧
      (df.cols.contains "Moment" = true →
        (∀ r ∈ df.rows, r.length = df.cols.length) →
        (DatLoader.load_dat_table df).cols = df.cols ∧
        (DatLoader.load_dat_table df).getCol "Moment" = some vs ∧
        (∀ name, name ≠ "Moment" →
          (DatLoader.load_dat_table df).getCol name = df.getCol name))) := by
  constructor
  · intro h
    simp [DatLoader.load_dat_table, h, DatLoader.optStrTruthy]
  · intro c vs hc hvs
    have hcmem : c ∈ DatLoader.momentCandidates :=
      List.mem_of_find?_eq_some hc
    have hcne : c ≠ "" := by
      simp only [DatLoader.momentCandidates, List.mem_cons, List.not_mem_nil,
        or_false] at hcmem
      rcases hcmem with rfl | rfl | rfl <;> decide
    have heval : DatLoader.load_dat_table df = df.assignCol "Moment" vs := by
      unfold DatLoader.load_dat_table
      rw [hc]
      simp [DatLoader.optStrTruthy, hcne, hvs]
    constructor
    · intro hMom
      have hidx : idxOf? "Moment" df.cols = none :=
        (idxOf?_eq_none_iff _ _).mpr (fun hm => by
          rw [(contains_iff_mem _ _).mpr hm] at hMom
          exact Bool.true_eq_false.mp hMom)
      rw [heval]
      unfold DataFrame.assignCol
      rw [hidx]
    · intro hMom hrect
      obtain ⟨i, hi⟩ : ∃ i, idxOf? "Moment" df.cols = some i := by
        rcases hq : idxOf? "Moment" df.cols with _ | i
        · exact absurd ((idxOf?_eq_none_iff _ _).mp hq)
            (by simp [(contains_iff_mem _ _).mp hMom])
        · exact ⟨i, rfl⟩
      have hlen : df.rows.length = vs.length := (getCol_length hvs).symm
      have hilt : i < df.cols.length := idxOf?_lt_length hi
      rw [heval]
      unfold DataFrame.assignCol
      rw [hi]
      refine ⟨rfl, ?_, ?_⟩
      · unfold DataFrame.getCol
        rw [hi]
        simp only [Option.map_some', Option.some.injEq]
        exact map_set_getD_eq df.rows vs i hlen
          (fun r hr => by rw [hrect r hr]; exact hilt)
      · intro name hname
        unfold DataFrame.getCol
        rcases hq : idxOf? name df.cols with _ | j
        · simp
        · simp only [Option.map_some', Option.some.injEq]
          have hj : j ≠ i := by
            intro hq2
            have h1 := idxOf?_get hq
            have h2 := idxOf?_get hi
            rw [hq2, h2] at h1
            exact hname (Option.some.inj h1).symm
          exact map_set_getD_ne df.rows vs i j hlen hj

/-- C10 witness: with only a `Moment (emu)` column, `load_dat` appends a
`Moment` column carrying its values. -/
theorem claim_C10_witness :
    DatLoader.load_dat_table ⟨["Moment (emu)"], [[Cell.num 3]]⟩ =
      ⟨["Moment (emu)", "Moment"], [[Cell.num 3, Cell.num 3]]⟩ := by
  have h := ((claim_C10_amended ⟨["Moment (emu)"], [[Cell.num 3]]⟩).2
    "Moment (emu)" [Cell.num 3] (by decide) (by decide)).1 (by decide)
  exact h.trans (by decide)
